import Mathlib

/-
  Shallow embedding of the PulseSensor heart-rate driver
  (src/src/HeartRate.c and src/src/HeartRate.h).

  Modelling conventions:
  - C float fields (signal, thresh_setting, amplitude, peak, trough, thresh)
    are modelled as exact rationals.  The driver only compares these values
    and combines them with +, -, /2; no claim in this development depends on
    floating-point rounding, only on which side of a comparison a value falls.
  - uint32_t values (IBI, the rate array entries, the running total, the ms
    argument) are naturals with an explicit mod 2^32 at each assignment or
    accumulation that the C code performs in uint32_t arithmetic.
  - uint8_t BPM is a natural with an explicit mod 256 at the one assignment
    that stores a computed value into the uint8_t field.
  - uint64_t fields (last_beat_time, sample_counter, N) are modelled as
    unbounded naturals.  In the C code these are only ever combined by
    sample_counter += ms and by the difference sample_counter -
    last_beat_time; because the timeout path keeps sample_counter -
    last_beat_time at most 2500 after every call, the per-call difference is
    bounded by 2500 + 2^32 and therefore never reaches the uint64 wraparound,
    so the unbounded model and the mod-2^64 model assign the same value to N
    and agree modulo 2^64 on both counters; every observation the driver
    makes of these fields (the comparisons on N, the uint32 truncations) is
    identical in the two models.
  - last_beat_time is only ever assigned 0 or the current sample_counter, so
    last_beat_time is at most sample_counter in every reachable state and the
    uint64 subtraction agrees with truncated natural subtraction.
-/

set_option maxRecDepth 2000

/-- State of the driver: a direct transcription of the pulse_sensor_t struct
from src/src/HeartRate.h (lines 28-48), fields in source order.  The rate
array uint32_t rate[10] is a function from Fin 10. -/
structure pulse_sensor_t where
  signal : ℚ
  BPM : ℕ
  IBI : ℕ
  pulse : Bool
  start_of_beat : Bool
  thresh_setting : ℚ
  amplitude : ℚ
  last_beat_time : ℕ
  rate : Fin 10 → ℕ
  sample_counter : ℕ
  N : ℕ
  peak : ℚ
  trough : ℚ
  thresh : ℚ
  first_beat : Bool
  second_beat : Bool

/-- Effect of memset(PS->rate, 0, 10) in reset_variables (HeartRate.c line
34).  The third argument of memset counts bytes, and the array holds ten
4-byte uint32_t values (40 bytes), so only the first ten bytes are zeroed:
entries 0 and 1 entirely, and, on the little-endian targets this driver is
written for (the nRF log header in HeartRate.h), the low-order two bytes of
entry 2.  Entries 3 through 9 are untouched whatever the byte order. -/
def memset10 (r : Fin 10 → ℕ) : Fin 10 → ℕ :=
  fun i =>
    if i.val = 0 then 0
    else if i.val = 1 then 0
    else if i.val = 2 then r i / 65536 * 65536
    else r i

/-- reset_variables, HeartRate.c lines 33-47.  The float literals 0.6 and
0.12 are modelled as the rationals 3/5 and 3/25. -/
def reset_variables (s : pulse_sensor_t) : pulse_sensor_t :=
  { s with
    rate := memset10 s.rate
    start_of_beat := false
    BPM := 0
    IBI := 750
    pulse := false
    sample_counter := 0
    last_beat_time := 0
    peak := 3/5
    trough := 3/5
    thresh := s.thresh_setting
    amplitude := 3/25
    first_beat := true
    second_beat := false }

/-- heart_rate_init, HeartRate.c lines 24-26: a call to reset_variables. -/
def heart_rate_init (s : pulse_sensor_t) : pulse_sensor_t :=
  reset_variables s

/-- set_threshold, HeartRate.c lines 56-59. -/
def set_threshold (s : pulse_sensor_t) (threshold : ℚ) : pulse_sensor_t :=
  { s with thresh_setting := threshold, thresh := threshold }

/-- get_latest_sample, HeartRate.c lines 66-68. -/
def get_latest_sample (s : pulse_sensor_t) : ℚ :=
  s.signal

/-- get_beats_per_minute, HeartRate.c lines 75-77 (uint8_t return of the
uint8_t BPM field). -/
def get_beats_per_minute (s : pulse_sensor_t) : ℕ :=
  s.BPM

/-- get_inter_beat_interval, HeartRate.c lines 84-86 (uint32_t return of the
uint32_t IBI field). -/
def get_inter_beat_interval (s : pulse_sensor_t) : ℕ :=
  s.IBI

/-- saw_start_of_beat, HeartRate.c lines 93-95.  The body only reads the
flag; the second component of the result models the pointed-to struct as the
call leaves it, which is the struct it received. -/
def saw_start_of_beat (s : pulse_sensor_t) : Bool × pulse_sensor_t :=
  (s.start_of_beat, s)

/-- is_inside_beat, HeartRate.c lines 102-104. -/
def is_inside_beat (s : pulse_sensor_t) : Bool :=
  s.pulse

/-- get_pulse_amplitude, HeartRate.c lines 111-113. -/
def get_pulse_amplitude (s : pulse_sensor_t) : ℚ :=
  s.amplitude

/-- get_last_beat_time, HeartRate.c lines 120-122.  The declared return type
is uint32_t while the field is uint64_t (HeartRate.h line 37), so the C
return statement converts the field modulo 2^32. -/
def get_last_beat_time (s : pulse_sensor_t) : ℕ :=
  s.last_beat_time % 4294967296

/-- Seeding loop, HeartRate.c lines 169-171: every slot of the rate array is
assigned the current IBI. -/
def seedRate (v : ℕ) : Fin 10 → ℕ :=
  fun _ => v

/-- Shift loop, HeartRate.c lines 183-188: rate[i] = rate[i+1] for i = 0..8
(each slot reads the not-yet-overwritten next slot, so the sequential loop
equals this simultaneous description), then rate[9] = IBI (the argument v). -/
def shiftRate (r : Fin 10 → ℕ) (v : ℕ) : Fin 10 → ℕ :=
  fun i => if h : i.val + 1 < 10 then r ⟨i.val + 1, h⟩ else v

/-- Sum of all ten slots.  The C loop accumulates running_total in uint32_t,
adding the nine shifted slots (lines 183-186) and then the new slot (line
189); accumulating modulo 2^32 at every += and reducing the full sum modulo
2^32 once give the same value, so the code below applies the mod once where
the sum is used. -/
def rtSum (r : Fin 10 → ℕ) : ℕ :=
  r 0 + r 1 + r 2 + r 3 + r 4 + r 5 + r 6 + r 7 + r 8 + r 9

/-- Instrumentation record for one pulse_sensor_process_sample call:
whether the beat-edge branch (HeartRate.c line 159) fired, whether the call
took the first-beat early return (line 177), and, when the steady-phase BPM
computation (lines 181-191) ran, the divisor running_total after the /= 10
of line 190. -/
structure StepInfo where
  fired : Bool
  early : Bool
  divisor : Option ℕ

/-- Lines 134-135: sample_counter += ms and N = sample_counter -
last_beat_time (the subtraction of the already-updated counter). -/
def clockStep (s : pulse_sensor_t) (sig : ℚ) (ms : ℕ) : pulse_sensor_t :=
  { s with
    signal := sig
    sample_counter := s.sample_counter + ms
    N := s.sample_counter + ms - s.last_beat_time }

/-- Trough tracking, HeartRate.c lines 141-148. -/
def troughStep (s : pulse_sensor_t) : pulse_sensor_t :=
  if s.signal < s.thresh ∧ (s.IBI / 5) * 3 < s.N then
    if s.signal < s.trough then { s with trough := s.signal } else s
  else s

/-- Peak tracking, HeartRate.c lines 150-155. -/
def peakStep (s : pulse_sensor_t) : pulse_sensor_t :=
  if s.thresh < s.signal ∧ s.peak < s.signal then { s with peak := s.signal } else s

/-- Conjunction of the two beat-edge guards, HeartRate.c lines 158-159: the
outer N > 250 test and the inner signal/pulse/dichrotic-window test. -/
def edgeCond (s : pulse_sensor_t) : Prop :=
  250 < s.N ∧ s.thresh < s.signal ∧ s.pulse = false ∧ (s.IBI / 5) * 3 < s.N

instance (s : pulse_sensor_t) : Decidable (edgeCond s) :=
  inferInstanceAs
    (Decidable (250 < s.N ∧ s.thresh < s.signal ∧ s.pulse = false ∧ (s.IBI / 5) * 3 < s.N))

/-- Beat-edge branch, HeartRate.c lines 158-194.  IBI = sample_counter -
last_beat_time is a uint32_t assignment of a uint64_t difference, hence the
mod 2^32.  The seed loop runs when second_beat is set (lines 167-172); the
first-beat branch returns from the whole function early (lines 174-178);
otherwise the shift loop, the average and the BPM store run (lines 181-192),
the store being into the uint8_t BPM field, hence the mod 256. -/
def edgeStep (s : pulse_sensor_t) : pulse_sensor_t × StepInfo :=
  if edgeCond s then
    let u := { s with
      pulse := true
      IBI := (s.sample_counter - s.last_beat_time) % 4294967296
      last_beat_time := s.sample_counter }
    let v := if u.second_beat then { u with second_beat := false, rate := seedRate u.IBI } else u
    if v.first_beat then
      ({ v with first_beat := false, second_beat := true }, ⟨true, true, none⟩)
    else
      let w := { v with rate := shiftRate v.rate v.IBI }
      let rt := rtSum w.rate % 4294967296 / 10
      ({ w with BPM := 60000 / rt % 256, start_of_beat := true }, ⟨true, false, some rt⟩)
  else (s, ⟨false, false, none⟩)

/-- Beat-end branch, HeartRate.c lines 197-206: amplitude = peak - trough,
thresh = amplitude / 2 + trough, and peak and trough reset to the new
thresh. -/
def beatEndStep (s : pulse_sensor_t) : pulse_sensor_t :=
  if s.signal < s.thresh ∧ s.pulse = true then
    { s with
      pulse := false
      amplitude := s.peak - s.trough
      thresh := (s.peak - s.trough) / 2 + s.trough
      peak := (s.peak - s.trough) / 2 + s.trough
      trough := (s.peak - s.trough) / 2 + s.trough }
  else s

/-- Timeout branch, HeartRate.c lines 209-224. -/
def timeoutStep (s : pulse_sensor_t) : pulse_sensor_t :=
  if 2500 < s.N then
    { s with
      thresh := s.thresh_setting
      peak := 3/5
      trough := 3/5
      last_beat_time := s.sample_counter
      first_beat := true
      second_beat := false
      start_of_beat := false
      BPM := 0
      IBI := 600
      pulse := false
      amplitude := 3/25 }
  else s

/-- pulse_sensor_process_sample, HeartRate.c lines 130-225, with the latest
signal value passed as an argument (the caller stores it into the struct
before the call; section 6 of the spec allows passing it directly).  The
early return of line 177 skips the beat-end and timeout blocks.  The second
component is proof instrumentation only; the state component is the
embedding of the C function. -/
def preEdge (s : pulse_sensor_t) (sig : ℚ) (ms : ℕ) : pulse_sensor_t :=
  peakStep (troughStep (clockStep s sig ms))

def processSampleFull (s : pulse_sensor_t) (sig : ℚ) (ms : ℕ) :
    pulse_sensor_t × StepInfo :=
  if (edgeStep (preEdge s sig ms)).2.early then edgeStep (preEdge s sig ms)
  else (timeoutStep (beatEndStep (edgeStep (preEdge s sig ms)).1),
        (edgeStep (preEdge s sig ms)).2)

/-- The state transition of one pulse_sensor_process_sample call. -/
def pulse_sensor_process_sample (s : pulse_sensor_t) (sig : ℚ) (ms : ℕ) :
    pulse_sensor_t :=
  (processSampleFull s sig ms).1

/-- States reachable from heart_rate_init (applied to an arbitrary prior
struct) by any sequence of set_threshold, pulse_sensor_process_sample and
reset_variables calls.  The ms argument of a call is a uint32_t, hence
smaller than 2^32. -/
inductive Reach : pulse_sensor_t → Prop
  | init (s0 : pulse_sensor_t) : Reach (heart_rate_init s0)
  | reset {s : pulse_sensor_t} : Reach s → Reach (reset_variables s)
  | setThresh {s : pulse_sensor_t} (t : ℚ) : Reach s → Reach (set_threshold s t)
  | step {s : pulse_sensor_t} (sig : ℚ) (ms : ℕ) : ms < 4294967296 → Reach s →
      Reach (pulse_sensor_process_sample s sig ms)

/-- Reachability along traces whose pulse_sensor_process_sample calls all
pass at most 400000000 ms (about 4.6 days) of elapsed time, so that no time
difference ever reaches the uint32 range. -/
inductive ReachB : pulse_sensor_t → Prop
  | init (s0 : pulse_sensor_t) : ReachB (heart_rate_init s0)
  | reset {s : pulse_sensor_t} : ReachB s → ReachB (reset_variables s)
  | setThresh {s : pulse_sensor_t} (t : ℚ) : ReachB s → ReachB (set_threshold s t)
  | step {s : pulse_sensor_t} (sig : ℚ) (ms : ℕ) : ms ≤ 400000000 → ReachB s →
      ReachB (pulse_sensor_process_sample s sig ms)

/-- Per-slot bounds maintained on the rate history whenever the detector is
in the steady phase of a bounded trace: every slot holds an IBI measured at
a qualifying edge, so it exceeds the 250 ms noise floor and, when every call
passes at most 400000000 ms, stays below 2500 + 400000000. -/
def entriesOK (r : Fin 10 → ℕ) : Prop :=
  ∀ i, 251 ≤ r i ∧ r i ≤ 400002500

/-- Trace invariant: last_beat_time never exceeds the sample counter, at
most 2500 ms of the counter are unaccounted for after every call (the
timeout path guarantees this), the two warm-up flags are never both set,
and in the steady phase every history slot holds a bounded measured IBI. -/
def TraceInv (s : pulse_sensor_t) : Prop :=
  s.last_beat_time ≤ s.sample_counter ∧
  s.sample_counter - s.last_beat_time ≤ 2500 ∧
  ¬(s.first_beat = true ∧ s.second_beat = true) ∧
  (s.first_beat = false → s.second_beat = false → entriesOK s.rate)

def s0c : pulse_sensor_t :=
  { signal := 0, BPM := 0, IBI := 0, pulse := false, start_of_beat := false,
    thresh_setting := 0, amplitude := 0, last_beat_time := 0, rate := fun _ => 0,
    sample_counter := 0, N := 0, peak := 0, trough := 0, thresh := 0,
    first_beat := false, second_beat := false }

def t1 : pulse_sensor_t := set_threshold (heart_rate_init s0c) (1/2)

def t1x : pulse_sensor_t :=
  { signal := 0, BPM := 0, IBI := 750, pulse := false, start_of_beat := false,
    thresh_setting := 1/2, amplitude := 3/25, last_beat_time := 0, rate := fun _ => 0,
    sample_counter := 0, N := 0, peak := 3/5, trough := 3/5, thresh := 1/2,
    first_beat := true, second_beat := false }

def t2 : pulse_sensor_t := pulse_sensor_process_sample t1 1 1000

def t2x : pulse_sensor_t :=
  { signal := 1, BPM := 0, IBI := 1000, pulse := true, start_of_beat := false,
    thresh_setting := 1/2, amplitude := 3/25, last_beat_time := 1000, rate := fun _ => 0,
    sample_counter := 1000, N := 1000, peak := 1, trough := 3/5, thresh := 1/2,
    first_beat := false, second_beat := true }

def t3 : pulse_sensor_t := pulse_sensor_process_sample t2 0 100

def t3x : pulse_sensor_t :=
  { signal := 0, BPM := 0, IBI := 1000, pulse := false, start_of_beat := false,
    thresh_setting := 1/2, amplitude := 2/5, last_beat_time := 1000, rate := fun _ => 0,
    sample_counter := 1100, N := 100, peak := 4/5, trough := 4/5, thresh := 4/5,
    first_beat := false, second_beat := true }

/-- The constant-zero rate array, for concrete evaluation. -/
lemma memset10_zero : memset10 (fun _ => 0) = fun _ => 0 := by
  funext i
  simp [memset10]

/-- Shifting a freshly seeded array by its own seed value leaves it seeded
(the situation at the second-beat call). -/
lemma shiftRate_seedRate (v : ℕ) : shiftRate (seedRate v) v = seedRate v := by
  funext i
  simp only [shiftRate, seedRate]
  split <;> rfl

/-- Sum of a seeded array. -/
lemma rtSum_seedRate (v : ℕ) : rtSum (seedRate v) = 10 * v := by
  simp [rtSum, seedRate]
  ring

/-- The trough-tracking step changes at most the trough field. -/
lemma troughStep_eq (s : pulse_sensor_t) : ∃ q, troughStep s = { s with trough := q } := by
  unfold troughStep
  split
  · split
    · exact ⟨s.signal, rfl⟩
    · exact ⟨s.trough, rfl⟩
  · exact ⟨s.trough, rfl⟩

/-- The peak-tracking step changes at most the peak field. -/
lemma peakStep_eq (s : pulse_sensor_t) : ∃ p, peakStep s = { s with peak := p } := by
  unfold peakStep
  split
  · exact ⟨s.signal, rfl⟩
  · exact ⟨s.peak, rfl⟩

/-- The state reaching the beat-edge test: signal stored, clock advanced, N
recomputed, and the trough and peak envelopes possibly updated. -/
lemma preEdge_eq (s : pulse_sensor_t) (sig : ℚ) (ms : ℕ) :
    ∃ q p, preEdge s sig ms =
      { s with signal := sig, sample_counter := s.sample_counter + ms,
               N := s.sample_counter + ms - s.last_beat_time, trough := q, peak := p } := by
  obtain ⟨q, hq⟩ := troughStep_eq (clockStep s sig ms)
  obtain ⟨p, hp⟩ := peakStep_eq (troughStep (clockStep s sig ms))
  refine ⟨q, p, ?_⟩
  unfold preEdge
  rw [hp, hq]
  rfl

/-- Beat-end branch taken. -/
lemma beatEndStep_pos (s : pulse_sensor_t) (h : s.signal < s.thresh ∧ s.pulse = true) :
    beatEndStep s =
      { s with pulse := false, amplitude := s.peak - s.trough,
               thresh := (s.peak - s.trough) / 2 + s.trough,
               peak := (s.peak - s.trough) / 2 + s.trough,
               trough := (s.peak - s.trough) / 2 + s.trough } := by
  unfold beatEndStep
  rw [if_pos h]

/-- Beat-end branch skipped. -/
lemma beatEndStep_neg (s : pulse_sensor_t) (h : ¬(s.signal < s.thresh ∧ s.pulse = true)) :
    beatEndStep s = s := by
  unfold beatEndStep
  rw [if_neg h]

/-- The beat-end branch changes at most pulse, amplitude, thresh, peak and
trough. -/
lemma beatEndStep_frame (s : pulse_sensor_t) :
    ∃ b a th pk tr, beatEndStep s =
      { s with pulse := b, amplitude := a, thresh := th, peak := pk, trough := tr } := by
  by_cases h : s.signal < s.thresh ∧ s.pulse = true
  · rw [beatEndStep_pos s h]
    exact ⟨_, _, _, _, _, rfl⟩
  · rw [beatEndStep_neg s h]
    exact ⟨s.pulse, s.amplitude, s.thresh, s.peak, s.trough, rfl⟩

/-- The beat-end branch never raises the pulse flag. -/
lemma beatEndStep_pulse (s : pulse_sensor_t) :
    (beatEndStep s).pulse = true → s.pulse = true := by
  by_cases h : s.signal < s.thresh ∧ s.pulse = true
  · rw [beatEndStep_pos s h]
    intro hx
    simp at hx
  · rw [beatEndStep_neg s h]
    exact fun hx => hx

/-- Timeout branch taken. -/
lemma timeoutStep_pos (s : pulse_sensor_t) (h : 2500 < s.N) :
    timeoutStep s =
      { s with thresh := s.thresh_setting, peak := 3/5, trough := 3/5,
               last_beat_time := s.sample_counter, first_beat := true, second_beat := false,
               start_of_beat := false, BPM := 0, IBI := 600, pulse := false,
               amplitude := 3/25 } := by
  unfold timeoutStep
  rw [if_pos h]

/-- Timeout branch skipped. -/
lemma timeoutStep_neg (s : pulse_sensor_t) (h : ¬ 2500 < s.N) : timeoutStep s = s := by
  unfold timeoutStep
  rw [if_neg h]

/-- Beat-edge branch skipped. -/
lemma edgeStep_neg (s : pulse_sensor_t) (h : ¬ edgeCond s) :
    edgeStep s = (s, ⟨false, false, none⟩) := by
  unfold edgeStep
  rw [if_neg h]

/-- Beat-edge branch with first_beat set: edge bookkeeping, then the early
return of HeartRate.c line 177. -/
lemma edgeStep_first (s : pulse_sensor_t) (h : edgeCond s) (h1 : s.first_beat = true)
    (h2 : s.second_beat = false) :
    edgeStep s =
      ({ s with pulse := true,
                IBI := (s.sample_counter - s.last_beat_time) % 4294967296,
                last_beat_time := s.sample_counter,
                first_beat := false, second_beat := true },
       ⟨true, true, none⟩) := by
  unfold edgeStep
  rw [if_pos h]
  simp [h1, h2]

/-- Beat-edge branch with second_beat set: edge bookkeeping, the seed loop,
then the shift loop and the BPM store run on the freshly seeded array. -/
lemma edgeStep_second (s : pulse_sensor_t) (h : edgeCond s) (h1 : s.first_beat = false)
    (h2 : s.second_beat = true) :
    edgeStep s =
      ({ s with pulse := true,
                IBI := (s.sample_counter - s.last_beat_time) % 4294967296,
                last_beat_time := s.sample_counter,
                second_beat := false,
                rate := seedRate ((s.sample_counter - s.last_beat_time) % 4294967296),
                BPM := 60000 /
                  (10 * ((s.sample_counter - s.last_beat_time) % 4294967296) % 4294967296 / 10)
                  % 256,
                start_of_beat := true },
       ⟨true, false,
        some (10 * ((s.sample_counter - s.last_beat_time) % 4294967296) % 4294967296 / 10)⟩) := by
  unfold edgeStep
  rw [if_pos h]
  simp [h1, h2, shiftRate_seedRate, rtSum_seedRate]

/-- Beat-edge branch in the steady phase: edge bookkeeping, shift loop, BPM
store. -/
lemma edgeStep_steady (s : pulse_sensor_t) (h : edgeCond s) (h1 : s.first_beat = false)
    (h2 : s.second_beat = false) :
    edgeStep s =
      ({ s with pulse := true,
                IBI := (s.sample_counter - s.last_beat_time) % 4294967296,
                last_beat_time := s.sample_counter,
                rate := shiftRate s.rate ((s.sample_counter - s.last_beat_time) % 4294967296),
                BPM := 60000 /
                  (rtSum (shiftRate s.rate ((s.sample_counter - s.last_beat_time) % 4294967296))
                    % 4294967296 / 10) % 256,
                start_of_beat := true },
       ⟨true, false,
        some (rtSum (shiftRate s.rate ((s.sample_counter - s.last_beat_time) % 4294967296))
          % 4294967296 / 10)⟩) := by
  unfold edgeStep
  rw [if_pos h]
  simp [h1, h2]

/-- A call that takes the early return produces exactly the edge-branch
state: the beat-end and timeout blocks are skipped. -/
lemma processSampleFull_early (s : pulse_sensor_t) (sig : ℚ) (ms : ℕ)
    (h : (edgeStep (preEdge s sig ms)).2.early = true) :
    processSampleFull s sig ms = edgeStep (preEdge s sig ms) := by
  unfold processSampleFull
  rw [if_pos h]

/-- A call that does not take the early return runs the beat-end and timeout
blocks on the edge-branch state. -/
lemma processSampleFull_notEarly (s : pulse_sensor_t) (sig : ℚ) (ms : ℕ)
    (h : ¬ (edgeStep (preEdge s sig ms)).2.early = true) :
    processSampleFull s sig ms =
      (timeoutStep (beatEndStep (edgeStep (preEdge s sig ms)).1),
       (edgeStep (preEdge s sig ms)).2) := by
  unfold processSampleFull
  rw [if_neg h]

/-- The instrumentation of a call is the instrumentation of its edge step. -/
lemma processSampleFull_snd (s : pulse_sensor_t) (sig : ℚ) (ms : ℕ) :
    (processSampleFull s sig ms).2 = (edgeStep (preEdge s sig ms)).2 := by
  unfold processSampleFull
  split <;> rfl

/- A concrete prior struct (the caller provides an arbitrary struct to
heart_rate_init; thresh_setting is the only field the header requires the
caller to have set). -/
/-- Explicit value of t1. -/
lemma t1_eval : t1 = t1x := by
  norm_num [t1, t1x, s0c, set_threshold, heart_rate_init, reset_variables, memset10_zero]

/-- Explicit value of t2: the first qualifying beat edge, taken through the
early return. -/
lemma t2_eval : t2 = t2x := by
  rw [t2, t1_eval]
  norm_num [t1x, t2x, pulse_sensor_process_sample, processSampleFull, preEdge, clockStep,
    troughStep, peakStep, edgeStep, beatEndStep, timeoutStep, edgeCond]

/-- Explicit value of t3: the beat-end branch runs 100 ms later. -/
lemma t3_eval : t3 = t3x := by
  rw [t3, t2_eval]
  norm_num [t2x, t3x, pulse_sensor_process_sample, processSampleFull, preEdge, clockStep,
    troughStep, peakStep, edgeStep, beatEndStep, timeoutStep, edgeCond]


lemma entriesOK_seedRate {v : ℕ} (h1 : 251 ≤ v) (h2 : v ≤ 400002500) :
    entriesOK (seedRate v) :=
  fun _ => ⟨h1, h2⟩

lemma entriesOK_shiftRate {r : Fin 10 → ℕ} {v : ℕ} (h : entriesOK r) (h1 : 251 ≤ v)
    (h2 : v ≤ 400002500) : entriesOK (shiftRate r v) := by
  intro i
  unfold shiftRate
  split
  · exact h _
  · exact ⟨h1, h2⟩

lemma rtSum_bounds {r : Fin 10 → ℕ} (h : entriesOK r) :
    2510 ≤ rtSum r ∧ rtSum r ≤ 4000025000 := by
  have h0 := h 0
  have h1 := h 1
  have h2 := h 2
  have h3 := h 3
  have h4 := h 4
  have h5 := h 5
  have h6 := h 6
  have h7 := h 7
  have h8 := h 8
  have h9 := h 9
  unfold rtSum
  omega

lemma TraceInv_reset (s : pulse_sensor_t) : TraceInv (reset_variables s) := by
  unfold TraceInv reset_variables
  refine ⟨?_, ?_, ?_, ?_⟩ <;> simp

lemma TraceInv_set_threshold (s : pulse_sensor_t) (h : TraceInv s) (t : ℚ) :
    TraceInv (set_threshold s t) := h

/-- Running the beat-end and timeout blocks after the edge phase preserves
the trace invariant, whatever state X the edge phase produced, as long as X
satisfies the invariant-shaped side conditions. -/
lemma TraceInv_post (X : pulse_sensor_t) (h1 : X.last_beat_time ≤ X.sample_counter)
    (h2 : ¬ 2500 < X.N → X.sample_counter - X.last_beat_time ≤ 2500)
    (h3 : ¬(X.first_beat = true ∧ X.second_beat = true))
    (h4 : X.first_beat = false → X.second_beat = false → entriesOK X.rate) :
    TraceInv (timeoutStep (beatEndStep X)) := by
  obtain ⟨b, a, th, pk, tr, hbe⟩ := beatEndStep_frame X
  by_cases ht : 2500 < (beatEndStep X).N
  · rw [timeoutStep_pos _ ht, hbe]
    refine ⟨?_, ?_, ?_, ?_⟩ <;> simp
  · rw [timeoutStep_neg _ ht, hbe]
    have ht2 : ¬ 2500 < X.N := by rw [hbe] at ht; exact ht
    exact ⟨h1, h2 ht2, h3, h4⟩

/-- One pulse_sensor_process_sample call with a bounded ms argument
preserves the trace invariant. -/
lemma TraceInv_process (s : pulse_sensor_t) (h : TraceInv s) (sig : ℚ) (ms : ℕ)
    (hms : ms ≤ 400000000) : TraceInv (pulse_sensor_process_sample s sig ms) := by
  obtain ⟨hlb, hres, hflag, hent⟩ := h
  obtain ⟨q, p, hpre⟩ := preEdge_eq s sig ms
  have hPlbt : (preEdge s sig ms).last_beat_time = s.last_beat_time := by rw [hpre]
  have hPsc : (preEdge s sig ms).sample_counter = s.sample_counter + ms := by rw [hpre]
  have hPN : (preEdge s sig ms).N = s.sample_counter + ms - s.last_beat_time := by rw [hpre]
  have hPrate : (preEdge s sig ms).rate = s.rate := by rw [hpre]
  have hPfb : (preEdge s sig ms).first_beat = s.first_beat := by rw [hpre]
  have hPsb : (preEdge s sig ms).second_beat = s.second_beat := by rw [hpre]
  by_cases hc : edgeCond (preEdge s sig ms)
  · have h250 : 250 < (preEdge s sig ms).N := hc.1
    rw [hPN] at h250
    have hibi : ((preEdge s sig ms).sample_counter - (preEdge s sig ms).last_beat_time)
        % 4294967296 = s.sample_counter + ms - s.last_beat_time := by
      rw [hPsc, hPlbt]
      exact Nat.mod_eq_of_lt (by omega)
    have hub : s.sample_counter + ms - s.last_beat_time ≤ 400002500 := by omega
    cases hfb : s.first_beat
    · cases hsb : s.second_beat
      · have hes := edgeStep_steady (preEdge s sig ms) hc (by rw [hPfb, hfb])
          (by rw [hPsb, hsb])
        have hne : ¬ (edgeStep (preEdge s sig ms)).2.early = true := by rw [hes]; simp
        unfold pulse_sensor_process_sample
        rw [processSampleFull_notEarly s sig ms hne]
        dsimp only
        rw [hes]
        dsimp only
        apply TraceInv_post
        · dsimp only
          omega
        · intro _
          dsimp only
          omega
        · dsimp only
          rw [hPfb, hPsb, hfb, hsb]
          simp
        · intro _ _
          dsimp only
          rw [hPrate, hibi]
          exact entriesOK_shiftRate (hent hfb hsb) (by omega) hub
      · have hes := edgeStep_second (preEdge s sig ms) hc (by rw [hPfb, hfb])
          (by rw [hPsb, hsb])
        have hne : ¬ (edgeStep (preEdge s sig ms)).2.early = true := by rw [hes]; simp
        unfold pulse_sensor_process_sample
        rw [processSampleFull_notEarly s sig ms hne]
        dsimp only
        rw [hes]
        dsimp only
        apply TraceInv_post
        · dsimp only
          omega
        · intro _
          dsimp only
          omega
        · dsimp only
          rw [hPfb, hfb]
          simp
        · intro _ _
          dsimp only
          rw [hibi]
          exact entriesOK_seedRate (by omega) hub
    · cases hsb : s.second_beat
      · have hes := edgeStep_first (preEdge s sig ms) hc (by rw [hPfb, hfb])
          (by rw [hPsb, hsb])
        have hearly : (edgeStep (preEdge s sig ms)).2.early = true := by rw [hes]
        unfold pulse_sensor_process_sample
        rw [processSampleFull_early s sig ms hearly, hes]
        dsimp only
        refine ⟨?_, ?_, ?_, ?_⟩
        · dsimp only
          omega
        · dsimp only
          omega
        · dsimp only
          simp
        · intro _ hx
          dsimp only at hx
          simp at hx
      · exact absurd ⟨hfb, hsb⟩ hflag
  · have hes := edgeStep_neg (preEdge s sig ms) hc
    have hne : ¬ (edgeStep (preEdge s sig ms)).2.early = true := by rw [hes]; simp
    unfold pulse_sensor_process_sample
    rw [processSampleFull_notEarly s sig ms hne]
    dsimp only
    rw [hes]
    dsimp only
    apply TraceInv_post
    · rw [hPlbt, hPsc]
      omega
    · intro hn
      rw [hPN] at hn
      rw [hPsc, hPlbt]
      omega
    · rw [hPfb, hPsb]
      exact hflag
    · intro a b
      rw [hPfb] at a
      rw [hPsb] at b
      rw [hPrate]
      exact hent a b

/-- Every state of a bounded trace satisfies the trace invariant. -/
lemma ReachB_TraceInv {s : pulse_sensor_t} (h : ReachB s) : TraceInv s := by
  induction h with
  | init s0 => exact TraceInv_reset s0
  | reset _ ih => exact TraceInv_reset _
  | setThresh t _ ih => exact TraceInv_set_threshold _ ih t
  | step sig ms hms _ ih => exact TraceInv_process _ ih sig ms hms

/-- On any invariant state, when a bounded call reaches the steady-phase BPM
computation the divisor it divides by is at least 251. -/
lemma divisor_min (s : pulse_sensor_t) (h : TraceInv s) (sig : ℚ) (ms : ℕ) (d : ℕ)
    (hms : ms ≤ 400000000)
    (hd : (processSampleFull s sig ms).2.divisor = some d) : 251 ≤ d := by
  obtain ⟨hlb, hres, hflag, hent⟩ := h
  obtain ⟨q, p, hpre⟩ := preEdge_eq s sig ms
  have hPlbt : (preEdge s sig ms).last_beat_time = s.last_beat_time := by rw [hpre]
  have hPsc : (preEdge s sig ms).sample_counter = s.sample_counter + ms := by rw [hpre]
  have hPN : (preEdge s sig ms).N = s.sample_counter + ms - s.last_beat_time := by rw [hpre]
  have hPrate : (preEdge s sig ms).rate = s.rate := by rw [hpre]
  have hPfb : (preEdge s sig ms).first_beat = s.first_beat := by rw [hpre]
  have hPsb : (preEdge s sig ms).second_beat = s.second_beat := by rw [hpre]
  rw [processSampleFull_snd s sig ms] at hd
  by_cases hc : edgeCond (preEdge s sig ms)
  · have h250 : 250 < (preEdge s sig ms).N := hc.1
    rw [hPN] at h250
    have hibi : ((preEdge s sig ms).sample_counter - (preEdge s sig ms).last_beat_time)
        % 4294967296 = s.sample_counter + ms - s.last_beat_time := by
      rw [hPsc, hPlbt]
      exact Nat.mod_eq_of_lt (by omega)
    have hub : s.sample_counter + ms - s.last_beat_time ≤ 400002500 := by omega
    cases hfb : s.first_beat
    · cases hsb : s.second_beat
      · rw [edgeStep_steady (preEdge s sig ms) hc (by rw [hPfb, hfb]) (by rw [hPsb, hsb])] at hd
        dsimp only at hd
        rw [hPrate, hibi] at hd
        have hentS := entriesOK_shiftRate (hent hfb hsb) (by omega) hub
        obtain ⟨hs1, hs2⟩ := rtSum_bounds hentS
        rw [Nat.mod_eq_of_lt (by omega)] at hd
        injection hd with hd2
        have hdiv : 251 ≤
            rtSum (shiftRate s.rate (s.sample_counter + ms - s.last_beat_time)) / 10 := by
          rw [Nat.le_div_iff_mul_le (by norm_num)]
          omega
        exact hd2 ▸ hdiv
      · rw [edgeStep_second (preEdge s sig ms) hc (by rw [hPfb, hfb]) (by rw [hPsb, hsb])] at hd
        dsimp only at hd
        rw [hibi] at hd
        rw [Nat.mod_eq_of_lt (by omega)] at hd
        rw [Nat.mul_div_cancel_left _ (by norm_num : (0:ℕ) < 10)] at hd
        injection hd with hd2
        omega
    · cases hsb : s.second_beat
      · rw [edgeStep_first (preEdge s sig ms) hc (by rw [hPfb, hfb]) (by rw [hPsb, hsb])] at hd
        dsimp only at hd
        exact absurd hd (by simp)
      · exact absurd ⟨hfb, hsb⟩ hflag
  · rw [edgeStep_neg (preEdge s sig ms) hc] at hd
    dsimp only at hd
    exact absurd hd (by simp)

lemma edgeStep_N (s : pulse_sensor_t) : (edgeStep s).1.N = s.N := by
  unfold edgeStep
  dsimp only
  split_ifs <;> rfl

lemma beatEndStep_N (s : pulse_sensor_t) : (beatEndStep s).N = s.N := by
  unfold beatEndStep
  split_ifs <;> rfl

lemma timeoutStep_N (s : pulse_sensor_t) : (timeoutStep s).N = s.N := by
  unfold timeoutStep
  split_ifs <;> rfl

/-- The N field after a call is the time-since-last-beat value computed at
the top of the call (no later block writes N). -/
lemma processSample_N (s : pulse_sensor_t) (sig : ℚ) (ms : ℕ) :
    (pulse_sensor_process_sample s sig ms).N =
      s.sample_counter + ms - s.last_beat_time := by
  obtain ⟨q, p, hpre⟩ := preEdge_eq s sig ms
  unfold pulse_sensor_process_sample processSampleFull
  split
  · rw [edgeStep_N, hpre]
  · rw [timeoutStep_N, beatEndStep_N, edgeStep_N, hpre]

/-- The fired flag of the instrumentation is set exactly when the two
beat-edge guards hold. -/
lemma edgeStep_fired (s : pulse_sensor_t) : (edgeStep s).2.fired = true ↔ edgeCond s := by
  by_cases hc : edgeCond s
  · unfold edgeStep
    rw [if_pos hc]
    dsimp only
    constructor
    · intro _
      exact hc
    · intro _
      split_ifs <;> rfl
  · unfold edgeStep
    rw [if_neg hc]
    simp [hc]

lemma memset10_idem (r : Fin 10 → ℕ) : memset10 (memset10 r) = memset10 r := by
  funext i
  unfold memset10
  by_cases h0 : i.val = 0
  · simp [h0]
  · by_cases h1 : i.val = 1
    · simp [h0, h1]
    · by_cases h2 : i.val = 2
      · simp [h0, h1, h2, Nat.mul_div_cancel]
      · simp [h0, h1, h2]

/-- C10: calling reset_variables twice in a row, from any detector state,
yields a state identical to calling it once. -/
theorem C10_reset_idempotent (s : pulse_sensor_t) :
    reset_variables (reset_variables s) = reset_variables s := by
  unfold reset_variables
  dsimp only
  rw [memset10_idem]

/-- C8 counterexample: a detector state whose uint64 last_beat_time field
holds 2^32; the uint32-returning accessor reads it back as 0 rather than
the stored value, so the accessor is not the identity on every value the
field can hold. -/
def c8s : pulse_sensor_t :=
  { s0c with last_beat_time := 4294967296 }

theorem C8_truncation_counterexample :
    c8s.last_beat_time = 4294967296 ∧ get_last_beat_time c8s = 0 ∧
    get_last_beat_time c8s ≠ c8s.last_beat_time := by
  refine ⟨rfl, ?_, ?_⟩ <;> norm_num [get_last_beat_time, c8s, s0c]

/-- C8 amended: get_last_beat_time returns the uint64 last_beat_time field
reduced modulo 2^32 (the uint32 return type of HeartRate.c line 120), which
equals the stored field exactly when the field is below 2^32. -/
theorem C8_accessor_amended (s : pulse_sensor_t) (h : s.last_beat_time < 4294967296) :
    get_last_beat_time s = s.last_beat_time :=
  Nat.mod_eq_of_lt h

theorem C8_accessor_amended_witness : get_last_beat_time s0c = s0c.last_beat_time :=
  C8_accessor_amended s0c (by norm_num [s0c])

/-- C1: a prior state whose tenth history slot is 500. -/
def c1pre : pulse_sensor_t :=
  { s0c with rate := fun i => if i.val = 9 then 500 else 0 }

/-- C1 evaluation at the failing input: after reset_variables (equivalently
heart_rate_init), the scalar fields do take their documented defaults, but
slot 9 of the rate history still holds 500 because memset(PS->rate, 0, 10)
clears 10 bytes, not the 40 bytes of the uint32_t[10] array. -/
theorem C1_reset_leaves_history :
    (reset_variables c1pre).BPM = 0 ∧ (reset_variables c1pre).IBI = 750 ∧
    (reset_variables c1pre).first_beat = true ∧
    (reset_variables c1pre).rate 0 = 0 ∧
    (reset_variables c1pre).rate 9 = 500 ∧ (500 : ℕ) ≠ 0 := by
  refine ⟨rfl, rfl, rfl, by decide, by decide, by norm_num⟩

/-- C2 counterexample: the state reached by heart_rate_init, set_threshold
0.5, a first edge at 1000 ms and a beat end at 1100 ms is reachable, and the
next call, carrying a legal uint32 elapsed-ms argument of 2^32 - 100, makes
time_since_last_beat exactly 2^32, so the uint32 store into IBI yields 0,
the second-beat seeding fills the history with zeros, and the steady-phase
BPM computation is reached with running_total = 0: the division 60000 /
running_total divides by zero. -/
theorem C2_div_by_zero_counterexample :
    Reach t3 ∧ (processSampleFull t3 1 4294967196).2.divisor = some 0 := by
  constructor
  · exact Reach.step 0 100 (by norm_num) (Reach.step 1 1000 (by norm_num)
      (Reach.setThresh (1/2) (Reach.init s0c)))
  · rw [t3_eval]
    norm_num [t3x, processSampleFull, preEdge, clockStep, troughStep, peakStep, edgeStep,
      beatEndStep, timeoutStep, edgeCond, shiftRate_seedRate, rtSum_seedRate]

/-- C2 amended: along traces whose pulse_sensor_process_sample calls each
pass at most 400000000 ms of elapsed time (so no time difference reaches the
uint32 range and no history sum wraps), whenever a call reaches the
steady-phase BPM computation its divisor running_total is positive (indeed
at least 251), so 60000 / running_total never divides by zero. -/
theorem C2_running_total_positive (s : pulse_sensor_t) (hs : ReachB s) (sig : ℚ)
    (ms d : ℕ) (hms : ms ≤ 400000000)
    (hd : (processSampleFull s sig ms).2.divisor = some d) : 0 < d :=
  Nat.lt_of_lt_of_le (by norm_num) (divisor_min s (ReachB_TraceInv hs) sig ms d hms hd)

theorem C2_running_total_positive_witness : 0 < 1000 :=
  C2_running_total_positive t3
    (ReachB.step 0 100 (by norm_num) (ReachB.step 1 1000 (by norm_num)
      (ReachB.setThresh (1/2) (ReachB.init s0c)))) 1 900 1000 (by norm_num)
    (by
      rw [t3_eval]
      norm_num [t3x, processSampleFull, preEdge, clockStep, troughStep, peakStep, edgeStep,
        beatEndStep, timeoutStep, edgeCond, shiftRate_seedRate, rtSum_seedRate])

/-- C5: on a call that detects the first qualifying beat edge (first_beat
set, second_beat clear, edge guards passed), BPM and the whole rate history
are left unchanged, start_of_beat stays false, the steady-phase divisor is
never computed, and the call goes through the early return of HeartRate.c
line 177. -/
theorem C5_first_edge_discard (s : pulse_sensor_t) (sig : ℚ) (ms : ℕ)
    (h1 : s.first_beat = true) (h2 : s.second_beat = false) (h3 : s.start_of_beat = false)
    (hf : (processSampleFull s sig ms).2.fired = true) :
    (pulse_sensor_process_sample s sig ms).BPM = s.BPM ∧
    (pulse_sensor_process_sample s sig ms).rate = s.rate ∧
    (pulse_sensor_process_sample s sig ms).start_of_beat = false ∧
    (processSampleFull s sig ms).2.divisor = none ∧
    (processSampleFull s sig ms).2.early = true := by
  obtain ⟨q, p, hpre⟩ := preEdge_eq s sig ms
  rw [processSampleFull_snd s sig ms] at hf
  have hc : edgeCond (preEdge s sig ms) := (edgeStep_fired _).mp hf
  have hes := edgeStep_first (preEdge s sig ms) hc (by rw [hpre]; exact h1)
    (by rw [hpre]; exact h2)
  have hearly : (edgeStep (preEdge s sig ms)).2.early = true := by rw [hes]
  unfold pulse_sensor_process_sample
  rw [processSampleFull_early s sig ms hearly, hes]
  dsimp only
  refine ⟨?_, ?_, ?_, rfl, rfl⟩
  · rw [hpre]
  · rw [hpre]
  · rw [hpre]
    exact h3

theorem C5_first_edge_discard_witness :
    (pulse_sensor_process_sample t1 1 1000).BPM = t1.BPM ∧
    (pulse_sensor_process_sample t1 1 1000).rate = t1.rate ∧
    (pulse_sensor_process_sample t1 1 1000).start_of_beat = false ∧
    (processSampleFull t1 1 1000).2.divisor = none ∧
    (processSampleFull t1 1 1000).2.early = true :=
  C5_first_edge_discard t1 1 1000 (by rw [t1_eval]; rfl) (by rw [t1_eval]; rfl)
    (by rw [t1_eval]; rfl)
    (by
      rw [t1_eval]
      norm_num [t1x, processSampleFull, preEdge, clockStep, troughStep, peakStep, edgeStep,
        beatEndStep, timeoutStep, edgeCond])

/-- C6: on any reachable state, a call whose freshly computed
time_since_last_beat is at most 250 ms, or at most (IBI/5)*3 under integer
division, never fires the beat-edge branch: pulse is never raised and the
IBI and last_beat_time updates of that branch do not run. -/
theorem C6_noise_floors (s : pulse_sensor_t) (_hs : Reach s) (sig : ℚ) (ms : ℕ)
    (hn : (clockStep s sig ms).N ≤ 250 ∨ (clockStep s sig ms).N ≤ (s.IBI / 5) * 3) :
    (processSampleFull s sig ms).2.fired = false ∧
    ((pulse_sensor_process_sample s sig ms).pulse = true → s.pulse = true) := by
  obtain ⟨q, p, hpre⟩ := preEdge_eq s sig ms
  have hn2 : s.sample_counter + ms - s.last_beat_time ≤ 250 ∨
      s.sample_counter + ms - s.last_beat_time ≤ (s.IBI / 5) * 3 := hn
  have hc : ¬ edgeCond (preEdge s sig ms) := by
    intro hcc
    obtain ⟨ha, _, _, hb⟩ := hcc
    rw [hpre] at ha hb
    have ha2 : 250 < s.sample_counter + ms - s.last_beat_time := ha
    have hb2 : (s.IBI / 5) * 3 < s.sample_counter + ms - s.last_beat_time := hb
    omega
  refine ⟨?_, ?_⟩
  · rw [processSampleFull_snd s sig ms, edgeStep_neg _ hc]
  · have hne : ¬ (edgeStep (preEdge s sig ms)).2.early = true := by
      rw [edgeStep_neg _ hc]
      simp
    unfold pulse_sensor_process_sample
    rw [processSampleFull_notEarly s sig ms hne, edgeStep_neg _ hc]
    dsimp only
    by_cases ht : 2500 < (beatEndStep (preEdge s sig ms)).N
    · rw [timeoutStep_pos _ ht]
      intro hx
      simp at hx
    · rw [timeoutStep_neg _ ht]
      intro hx
      have hx2 := beatEndStep_pulse (preEdge s sig ms) hx
      rw [hpre] at hx2
      exact hx2

theorem C6_noise_floors_witness :
    (processSampleFull t1 1 100).2.fired = false ∧
    ((pulse_sensor_process_sample t1 1 100).pulse = true → t1.pulse = true) :=
  C6_noise_floors t1 (Reach.setThresh (1/2) (Reach.init s0c)) 1 100
    (by
      rw [t1_eval]
      left
      norm_num [t1x, clockStep])

/-- C7 counterexample: from the freshly configured detector, a first beat
edge arriving with time_since_last_beat = 3000 ms (above the 2500 ms
timeout) takes the first-beat early return, which skips the timeout block:
the call computes N = 3000 yet ends with pulse = true and first_beat =
false, contradicting the claimed post-timeout state. -/
theorem C7_early_return_counterexample :
    (pulse_sensor_process_sample t1 1 3000).N = 3000 ∧
    2500 < (pulse_sensor_process_sample t1 1 3000).N ∧
    (pulse_sensor_process_sample t1 1 3000).pulse = true ∧
    (pulse_sensor_process_sample t1 1 3000).first_beat = false := by
  rw [t1_eval]
  norm_num [t1x, pulse_sensor_process_sample, processSampleFull, preEdge, clockStep,
    troughStep, peakStep, edgeStep, beatEndStep, timeoutStep, edgeCond]

/-- C7 amended: on any detector state, a call that detects no qualifying
beat edge and computes time_since_last_beat above 2500 ms ends in the full
timeout state: BPM 0, IBI 600, pulse false, peak and trough 0.6,
start_of_beat false, amplitude 0.12, thresh reseeded from thresh_setting,
last_beat_time brought up to the sample counter, first_beat set, second_beat
clear, and the rate history untouched. -/
theorem C7_timeout_reacquisition (s : pulse_sensor_t) (sig : ℚ) (ms : ℕ)
    (hf : (processSampleFull s sig ms).2.fired = false)
    (hn : 2500 < (pulse_sensor_process_sample s sig ms).N) :
    (pulse_sensor_process_sample s sig ms).BPM = 0 ∧
    (pulse_sensor_process_sample s sig ms).IBI = 600 ∧
    (pulse_sensor_process_sample s sig ms).pulse = false ∧
    (pulse_sensor_process_sample s sig ms).peak = 3/5 ∧
    (pulse_sensor_process_sample s sig ms).trough = 3/5 ∧
    (pulse_sensor_process_sample s sig ms).start_of_beat = false ∧
    (pulse_sensor_process_sample s sig ms).amplitude = 3/25 ∧
    (pulse_sensor_process_sample s sig ms).thresh = s.thresh_setting ∧
    (pulse_sensor_process_sample s sig ms).last_beat_time =
      (pulse_sensor_process_sample s sig ms).sample_counter ∧
    (pulse_sensor_process_sample s sig ms).first_beat = true ∧
    (pulse_sensor_process_sample s sig ms).second_beat = false ∧
    (pulse_sensor_process_sample s sig ms).rate = s.rate := by
  obtain ⟨q, p, hpre⟩ := preEdge_eq s sig ms
  rw [processSampleFull_snd s sig ms] at hf
  have hc : ¬ edgeCond (preEdge s sig ms) := by
    intro hcc
    rw [(edgeStep_fired _).mpr hcc] at hf
    simp at hf
  have hne : ¬ (edgeStep (preEdge s sig ms)).2.early = true := by
    rw [edgeStep_neg _ hc]
    simp
  rw [processSample_N] at hn
  have hN : 2500 < (beatEndStep (preEdge s sig ms)).N := by
    rw [beatEndStep_N, hpre]
    exact hn
  unfold pulse_sensor_process_sample
  rw [processSampleFull_notEarly s sig ms hne, edgeStep_neg _ hc]
  dsimp only
  rw [timeoutStep_pos _ hN]
  obtain ⟨b, a, th, pk, tr, hbe⟩ := beatEndStep_frame (preEdge s sig ms)
  rw [hbe, hpre]
  exact ⟨rfl, rfl, rfl, rfl, rfl, rfl, rfl, rfl, rfl, rfl, rfl, rfl⟩

theorem C7_timeout_reacquisition_witness :
    (pulse_sensor_process_sample t1 0 3000).BPM = 0 ∧
    (pulse_sensor_process_sample t1 0 3000).IBI = 600 ∧
    (pulse_sensor_process_sample t1 0 3000).pulse = false ∧
    (pulse_sensor_process_sample t1 0 3000).peak = 3/5 ∧
    (pulse_sensor_process_sample t1 0 3000).trough = 3/5 ∧
    (pulse_sensor_process_sample t1 0 3000).start_of_beat = false ∧
    (pulse_sensor_process_sample t1 0 3000).amplitude = 3/25 ∧
    (pulse_sensor_process_sample t1 0 3000).thresh = t1.thresh_setting ∧
    (pulse_sensor_process_sample t1 0 3000).last_beat_time =
      (pulse_sensor_process_sample t1 0 3000).sample_counter ∧
    (pulse_sensor_process_sample t1 0 3000).first_beat = true ∧
    (pulse_sensor_process_sample t1 0 3000).second_beat = false ∧
    (pulse_sensor_process_sample t1 0 3000).rate = t1.rate :=
  C7_timeout_reacquisition t1 0 3000
    (by
      rw [t1_eval]
      norm_num [processSampleFull, preEdge, clockStep, troughStep, peakStep, edgeStep,
        beatEndStep, timeoutStep, edgeCond, t1x])
    (by
      rw [processSample_N, t1_eval]
      norm_num [t1x])

/-- Explicit value of the call on t3 with signal 1 and 2600 ms elapsed: the
second qualifying beat edge fires with N = 2700, seeds the history with the
computed IBI 2700 and stores BPM 22, but the same call then takes the
timeout branch (N above 2500), which zeroes BPM and resets IBI to 600 while
leaving the seeded history in place. -/
def t4x : pulse_sensor_t :=
  { signal := 1, BPM := 0, IBI := 600, pulse := false, start_of_beat := false,
    thresh_setting := 1/2, amplitude := 3/25, last_beat_time := 3700, rate := seedRate 2700,
    sample_counter := 3700, N := 2700, peak := 3/5, trough := 3/5, thresh := 1/2,
    first_beat := true, second_beat := false }

lemma t4_eval : pulse_sensor_process_sample t3 1 2600 = t4x := by
  rw [t3_eval]
  norm_num [t3x, t4x, pulse_sensor_process_sample, processSampleFull, preEdge, clockStep,
    troughStep, peakStep, edgeStep, beatEndStep, timeoutStep, edgeCond,
    shiftRate_seedRate, rtSum_seedRate]

/-- C4 counterexample: on the reachable state t3 the second qualifying beat
edge is detected with time_since_last_beat 2700 ms; all ten history slots do
end up equal to the computed IBI 2700, but the timeout block runs in the
same call, so the post-call BPM is 0 and not 60000 / 2700 = 22. -/
theorem C4_second_edge_counterexample :
    t3.first_beat = false ∧ t3.second_beat = true ∧
    (processSampleFull t3 1 2600).2.fired = true ∧
    (processSampleFull t3 1 2600).2.divisor = some 2700 ∧
    (∀ i, (pulse_sensor_process_sample t3 1 2600).rate i = 2700) ∧
    (pulse_sensor_process_sample t3 1 2600).BPM = 0 ∧
    (60000 : ℕ) / 2700 = 22 ∧ (0 : ℕ) ≠ 22 := by
  refine ⟨by rw [t3_eval]; rfl, by rw [t3_eval]; rfl, ?_, ?_, ?_, ?_, by norm_num,
    by norm_num⟩
  · rw [t3_eval]
    norm_num [processSampleFull, preEdge, clockStep, troughStep, peakStep, edgeStep,
      beatEndStep, timeoutStep, edgeCond, t3x, shiftRate_seedRate, rtSum_seedRate]
  · rw [t3_eval]
    norm_num [processSampleFull, preEdge, clockStep, troughStep, peakStep, edgeStep,
      beatEndStep, timeoutStep, edgeCond, t3x, shiftRate_seedRate, rtSum_seedRate]
  · intro i
    rw [t4_eval]
    rfl
  · rw [t4_eval]
    rfl

/-- C4 amended: on a call that detects the second qualifying beat edge
(first_beat clear, second_beat set, edge guards passed) and whose
time_since_last_beat stays within the 2500 ms timeout bound, after the call
every history slot equals the computed IBI and BPM = 60000 / IBI under
integer division. -/
theorem C4_second_edge_seeding (s : pulse_sensor_t) (sig : ℚ) (ms : ℕ)
    (h1 : s.first_beat = false) (h2 : s.second_beat = true)
    (hf : (processSampleFull s sig ms).2.fired = true)
    (hto : (pulse_sensor_process_sample s sig ms).N ≤ 2500) :
    (∀ i, (pulse_sensor_process_sample s sig ms).rate i =
        (pulse_sensor_process_sample s sig ms).IBI) ∧
    (pulse_sensor_process_sample s sig ms).BPM =
      60000 / (pulse_sensor_process_sample s sig ms).IBI := by
  obtain ⟨q, p, hpre⟩ := preEdge_eq s sig ms
  rw [processSampleFull_snd s sig ms] at hf
  have hc : edgeCond (preEdge s sig ms) := (edgeStep_fired _).mp hf
  have hes := edgeStep_second (preEdge s sig ms) hc (by rw [hpre]; exact h1)
    (by rw [hpre]; exact h2)
  have hne : ¬ (edgeStep (preEdge s sig ms)).2.early = true := by rw [hes]; simp
  rw [processSample_N] at hto
  have h250 : 250 < (preEdge s sig ms).N := hc.1
  rw [hpre] at h250
  have h250v : 250 < s.sample_counter + ms - s.last_beat_time := h250
  have hibi : ((preEdge s sig ms).sample_counter - (preEdge s sig ms).last_beat_time)
      % 4294967296 = s.sample_counter + ms - s.last_beat_time := by
    rw [hpre]
    dsimp only
    exact Nat.mod_eq_of_lt (by omega)
  have hbeq : beatEndStep (edgeStep (preEdge s sig ms)).1 = (edgeStep (preEdge s sig ms)).1 := by
    rw [hes]
    dsimp only
    apply beatEndStep_neg
    intro hx
    exact absurd hx.1 (lt_asymm hc.2.1)
  have htoq : timeoutStep (beatEndStep (edgeStep (preEdge s sig ms)).1) =
      (edgeStep (preEdge s sig ms)).1 := by
    rw [hbeq]
    apply timeoutStep_neg
    rw [edgeStep_N, hpre]
    dsimp only
    omega
  unfold pulse_sensor_process_sample
  rw [processSampleFull_notEarly s sig ms hne]
  dsimp only
  rw [htoq, hes]
  dsimp only
  refine ⟨fun i => rfl, ?_⟩
  rw [hibi]
  rw [Nat.mod_eq_of_lt
    (by omega : 10 * (s.sample_counter + ms - s.last_beat_time) < 4294967296)]
  rw [Nat.mul_div_cancel_left _ (by norm_num : (0:ℕ) < 10)]
  have hdle : 60000 / (s.sample_counter + ms - s.last_beat_time) ≤ 60000 / 251 :=
    Nat.div_le_div_left (by omega) (by norm_num)
  have h239 : (60000 : ℕ) / 251 = 239 := by norm_num
  exact Nat.mod_eq_of_lt (by omega)

theorem C4_second_edge_seeding_witness :
    (∀ i, (pulse_sensor_process_sample t3 1 900).rate i =
        (pulse_sensor_process_sample t3 1 900).IBI) ∧
    (pulse_sensor_process_sample t3 1 900).BPM =
      60000 / (pulse_sensor_process_sample t3 1 900).IBI :=
  C4_second_edge_seeding t3 1 900 (by rw [t3_eval]; rfl) (by rw [t3_eval]; rfl)
    (by
      rw [t3_eval]
      norm_num [processSampleFull, preEdge, clockStep, troughStep, peakStep, edgeStep,
        beatEndStep, timeoutStep, edgeCond, t3x, shiftRate_seedRate, rtSum_seedRate])
    (by
      rw [processSample_N, t3_eval]
      norm_num [t3x])

/-- Sum of the post-shift history when nine slots hold 100 and the new slot
700: used by the C3 counterexample. -/
lemma rtSum_mixed : rtSum (shiftRate (seedRate 100) 700) = 1600 := by decide

/-- A steady-phase detector state (both warm-up flags clear) whose ten
history slots all hold 100 ms. -/
def c3s : pulse_sensor_t :=
  { signal := 0, BPM := 0, IBI := 600, pulse := false, start_of_beat := false,
    thresh_setting := 1/2, amplitude := 3/25, last_beat_time := 0, rate := seedRate 100,
    sample_counter := 0, N := 0, peak := 3/5, trough := 3/5, thresh := 1/2,
    first_beat := false, second_beat := false }

/-- C3 counterexample: a steady-phase beat edge at 700 ms on the state c3s
shifts the history to nine 100s and one 700 (sum 1600), so the claimed value
is 60000 / (1600 / 10) = 375; but the store into the uint8_t BPM field
truncates 375 modulo 256, and the code leaves BPM = 119, not 375. -/
theorem C3_uint8_truncation_counterexample :
    c3s.first_beat = false ∧ c3s.second_beat = false ∧
    (processSampleFull c3s 1 700).2.divisor = some 160 ∧
    rtSum (pulse_sensor_process_sample c3s 1 700).rate = 1600 ∧
    (pulse_sensor_process_sample c3s 1 700).N = 700 ∧
    (pulse_sensor_process_sample c3s 1 700).BPM = 119 ∧
    (60000 : ℕ) / (1600 / 10) = 375 ∧ (119 : ℕ) ≠ 375 := by
  refine ⟨rfl, rfl, ?_, ?_, ?_, ?_, by norm_num, by norm_num⟩ <;>
    norm_num [c3s, pulse_sensor_process_sample, processSampleFull, preEdge, clockStep,
      troughStep, peakStep, edgeStep, beatEndStep, timeoutStep, edgeCond, rtSum_mixed]

/-- C3 amended: on a steady-phase beat edge, provided the post-shift history
sum stays below 2^32 (no uint32 wrap of running_total), the quotient fits
the uint8_t BPM field (60000 divided by the average is at most 255), and the
call does not also take the 2500 ms timeout, the computed divisor is the
history sum over 10 and the stored BPM is exactly 60000 / (sum(H) / 10),
with integer truncation once at each division, sum first, then / 10, then
60000 divided by the result. -/
theorem C3_bpm_formula (s : pulse_sensor_t) (sig : ℚ) (ms d : ℕ)
    (h1 : s.first_beat = false) (h2 : s.second_beat = false)
    (hd : (processSampleFull s sig ms).2.divisor = some d)
    (hsum : rtSum (pulse_sensor_process_sample s sig ms).rate < 4294967296)
    (hfit : 60000 / (rtSum (pulse_sensor_process_sample s sig ms).rate / 10) ≤ 255)
    (hto : (pulse_sensor_process_sample s sig ms).N ≤ 2500) :
    d = rtSum (pulse_sensor_process_sample s sig ms).rate / 10 ∧
    (pulse_sensor_process_sample s sig ms).BPM =
      60000 / (rtSum (pulse_sensor_process_sample s sig ms).rate / 10) := by
  obtain ⟨q, p, hpre⟩ := preEdge_eq s sig ms
  rw [processSampleFull_snd s sig ms] at hd
  have hc : edgeCond (preEdge s sig ms) := by
    by_contra hcc
    rw [edgeStep_neg _ hcc] at hd
    simp at hd
  have hes := edgeStep_steady (preEdge s sig ms) hc (by rw [hpre]; exact h1)
    (by rw [hpre]; exact h2)
  have hne : ¬ (edgeStep (preEdge s sig ms)).2.early = true := by rw [hes]; simp
  rw [processSample_N] at hto
  have hbeq : beatEndStep (edgeStep (preEdge s sig ms)).1 = (edgeStep (preEdge s sig ms)).1 := by
    rw [hes]
    dsimp only
    apply beatEndStep_neg
    intro hx
    exact absurd hx.1 (lt_asymm hc.2.1)
  have htoq : timeoutStep (beatEndStep (edgeStep (preEdge s sig ms)).1) =
      (edgeStep (preEdge s sig ms)).1 := by
    rw [hbeq]
    apply timeoutStep_neg
    rw [edgeStep_N, hpre]
    dsimp only
    omega
  have hpost : pulse_sensor_process_sample s sig ms = (edgeStep (preEdge s sig ms)).1 := by
    unfold pulse_sensor_process_sample
    rw [processSampleFull_notEarly s sig ms hne]
    dsimp only
    exact htoq
  rw [hpost, hes] at hsum hfit ⊢
  rw [hes] at hd
  dsimp only at hsum hfit hd ⊢
  rw [Nat.mod_eq_of_lt hsum] at hd
  injection hd with hd2
  rw [Nat.mod_eq_of_lt hsum]
  refine ⟨hd2.symm, ?_⟩
  exact Nat.mod_eq_of_lt (by omega)

/-- A steady-phase detector state with all ten history slots at 700 ms, for
the C3 witness. -/
def c3w : pulse_sensor_t :=
  { signal := 0, BPM := 0, IBI := 700, pulse := false, start_of_beat := false,
    thresh_setting := 1/2, amplitude := 3/25, last_beat_time := 0, rate := seedRate 700,
    sample_counter := 0, N := 0, peak := 3/5, trough := 3/5, thresh := 1/2,
    first_beat := false, second_beat := false }

theorem C3_bpm_formula_witness :
    700 = rtSum (pulse_sensor_process_sample c3w 1 700).rate / 10 ∧
    (pulse_sensor_process_sample c3w 1 700).BPM =
      60000 / (rtSum (pulse_sensor_process_sample c3w 1 700).rate / 10) :=
  C3_bpm_formula c3w 1 700 700 rfl rfl
    (by norm_num [c3w, processSampleFull, preEdge, clockStep, troughStep, peakStep,
      edgeStep, beatEndStep, timeoutStep, edgeCond, shiftRate_seedRate, rtSum_seedRate])
    (by norm_num [c3w, pulse_sensor_process_sample, processSampleFull, preEdge, clockStep,
      troughStep, peakStep, edgeStep, beatEndStep, timeoutStep, edgeCond, shiftRate_seedRate,
      rtSum_seedRate])
    (by norm_num [c3w, pulse_sensor_process_sample, processSampleFull, preEdge, clockStep,
      troughStep, peakStep, edgeStep, beatEndStep, timeoutStep, edgeCond, shiftRate_seedRate,
      rtSum_seedRate])
    (by
      rw [processSample_N]
      norm_num [c3w])

lemma beatEndStep_start (s : pulse_sensor_t) :
    (beatEndStep s).start_of_beat = s.start_of_beat := by
  unfold beatEndStep
  split_ifs <;> rfl

/-- The edge phase only ever raises the start_of_beat flag: if the flag is
clear afterwards it was clear before. -/
lemma edgeStep_start_mono (s : pulse_sensor_t) :
    (edgeStep s).1.start_of_beat = false → s.start_of_beat = false := by
  unfold edgeStep
  dsimp only
  split_ifs <;> intro h <;> (try exact h) <;> simp at h

/-- C9: saw_start_of_beat returns the current start_of_beat flag and leaves
the detector state exactly as it was (it does not clear the flag); moreover
a pulse_sensor_process_sample call only ever turns the flag from true to
false through the 2500 ms timeout path, and among the remaining operations
only reset_variables clears it while set_threshold never touches it. -/
theorem C9_start_of_beat_flag :
    (∀ s : pulse_sensor_t, (saw_start_of_beat s).1 = s.start_of_beat ∧
      (saw_start_of_beat s).2 = s) ∧
    (∀ (s : pulse_sensor_t) (sig : ℚ) (ms : ℕ),
      (pulse_sensor_process_sample s sig ms).start_of_beat = false →
        s.start_of_beat = false ∨ 2500 < (pulse_sensor_process_sample s sig ms).N) ∧
    (∀ s : pulse_sensor_t, (reset_variables s).start_of_beat = false) ∧
    (∀ (s : pulse_sensor_t) (t : ℚ), (set_threshold s t).start_of_beat = s.start_of_beat) := by
  refine ⟨fun s => ⟨rfl, rfl⟩, ?_, fun s => rfl, fun s t => rfl⟩
  intro s sig ms hx
  obtain ⟨q, p, hpre⟩ := preEdge_eq s sig ms
  unfold pulse_sensor_process_sample at hx
  by_cases he : (edgeStep (preEdge s sig ms)).2.early = true
  · rw [processSampleFull_early s sig ms he] at hx
    left
    have hx2 := edgeStep_start_mono (preEdge s sig ms) hx
    rw [hpre] at hx2
    exact hx2
  · rw [processSampleFull_notEarly s sig ms he] at hx
    dsimp only at hx
    by_cases ht : 2500 < (beatEndStep (edgeStep (preEdge s sig ms)).1).N
    · right
      rw [processSample_N]
      rw [beatEndStep_N, edgeStep_N, hpre] at ht
      exact ht
    · rw [timeoutStep_neg _ ht, beatEndStep_start] at hx
      left
      have hx2 := edgeStep_start_mono (preEdge s sig ms) hx
      rw [hpre] at hx2
      exact hx2

/-- A detector state with the edge flag set, for the C9 witness. -/
def c9s : pulse_sensor_t :=
  { s0c with start_of_beat := true }

theorem C9_start_of_beat_flag_witness :
    c9s.start_of_beat = false ∨ 2500 < (pulse_sensor_process_sample c9s 0 3000).N :=
  C9_start_of_beat_flag.2.1 c9s 0 3000
    (by norm_num [c9s, s0c, pulse_sensor_process_sample, processSampleFull, preEdge,
      clockStep, troughStep, peakStep, edgeStep, beatEndStep, timeoutStep, edgeCond])
